import Mathlib

/-!
Shallow embedding of `src/Simon_Says/Simon_Says.ino` (Motion Simon Says,
ESP32 + MPU6050 + SSD1306).

Modelling conventions:
- Directions are the integers used by the sketch: 0 = Up, 1 = Down,
  2 = Left, 3 = Right (`random(4)`, line 184).
- Machine time (`millis()`, an `unsigned long` = 32-bit on ESP32) is a `Nat`;
  the unsigned subtraction `millis() - lastInputTime` is `elapsed`, computed
  modulo 2^32 exactly as C unsigned arithmetic does.
- The blocking sketch performs several `millis()` reads inside one `loop()`
  iteration (separated by `delay` calls).  Each loop iteration is modelled as
  a function of the relevant sampled values: `now` is the value of `millis()`
  at the timeout check (line 238), `tset` is the value of `millis()` at the
  point where `lastInputTime` is finally written during that iteration
  (line 267 resp. line 214 — when both writes happen in one iteration only
  the later one at line 214 is observable, so a single parameter suffices).
- The tilt classifiers (lines 328-366) compare a float pitch/roll angle
  (computed by `atan2`-geometry from the accelerometer sample) against the
  integer thresholds with strict `<` / `>`.  The angle computation itself is
  external collaborator geometry; the classifier is embedded as the exact
  comparison ladder `checkPlayerInput` performs (lines 245-256), as a function
  of the computed pitch and roll angles of the tick's sample, over `ℚ`.
- Display activity is recorded as an abstract `Render` trace (one event per
  screen/glyph the sketch draws), so that win/lose screens and the feedback
  glyph of `handlePlayerMove` (line 260) are observable.
- The C global `int sequence[MAX_LEVEL]`, the globals `currentLevel`,
  `gameStarted`, `gameOver`, `lastInputTime` (lines 39-43) and the
  function-static cursor `currentMove` (line 235, which lives for the whole
  program run) together form the state record `GameS`.  Global/static ints
  are zero-initialised in C, giving `initState`.
-/

namespace SimonSays

/-- MAX_LEVEL game constant (line 26). -/
def MAX_LEVEL : Nat := 10

/-- INPUT_TIMEOUT in ms (line 28). -/
def INPUT_TIMEOUT : Nat := 3000

/-- PITCH_THRESHOLD in degrees (line 35); the sketch compares it against a
float angle, so it is embedded at type `ℚ`. -/
def PITCH_THRESHOLD : ℚ := 25

/-- ROLL_THRESHOLD in degrees (line 36). -/
def ROLL_THRESHOLD : ℚ := 15

/-- C unsigned 32-bit subtraction `now - last` (the type of `millis()` on
ESP32), as used in `millis() - lastInputTime` at line 238. -/
def elapsed (now last : Nat) : Nat :=
  (now + (4294967296 - last % 4294967296)) % 4294967296

/-- The mutable game state of the sketch: globals `sequence`, `currentLevel`,
`gameStarted`, `gameOver`, `lastInputTime` (lines 39-43) plus the
function-static input cursor `currentMove` of `checkPlayerInput` (line 235). -/
structure GameS where
  sequence : List Nat
  currentLevel : Nat
  gameStarted : Bool
  gameOver : Bool
  lastInputTime : Nat
  currentMove : Nat
deriving DecidableEq

/-- State at boot: C zero-initialises the globals and the static cursor;
`currentLevel` is explicitly initialised to 1 (line 40). -/
def initState : GameS :=
  { sequence := List.replicate MAX_LEVEL 0
    currentLevel := 1
    gameStarted := false
    gameOver := false
    lastInputTime := 0
    currentMove := 0 }

/-- One abstract render event per screen or glyph the sketch draws. -/
inductive Render where
  | startScreen
  | gameOverScreen (level : Nat)
  | levelScreen (level : Nat)
  | upArrow
  | downArrow
  | leftArrow
  | rightArrow
  | clearScreen
  | winScreen
deriving DecidableEq

/-- isTiltUp (lines 328-336): strict comparison of the computed pitch angle
against `-PITCH_THRESHOLD`. -/
def isTiltUp (pitch : ℚ) : Bool := pitch < -PITCH_THRESHOLD

/-- isTiltDown (lines 338-346): strict comparison of the computed pitch angle
against `PITCH_THRESHOLD`. -/
def isTiltDown (pitch : ℚ) : Bool := PITCH_THRESHOLD < pitch

/-- isTiltLeft (lines 348-356): strict comparison of the computed roll angle
against `-ROLL_THRESHOLD`. -/
def isTiltLeft (roll : ℚ) : Bool := roll < -ROLL_THRESHOLD

/-- isTiltRight (lines 358-366): strict comparison of the computed roll angle
against `ROLL_THRESHOLD`. -/
def isTiltRight (roll : ℚ) : Bool := ROLL_THRESHOLD < roll

/-- The gesture-classification ladder of `checkPlayerInput` (lines 245-256):
Up, then Down, then Left, then Right; `none` when no tilt predicate fires. -/
def classify (pitch roll : ℚ) : Option Nat :=
  if isTiltUp pitch then some 0
  else if isTiltDown pitch then some 1
  else if isTiltLeft roll then some 2
  else if isTiltRight roll then some 3
  else none

/-- showArrow (lines 217-232): the switch on the direction value; a value
outside 0-3 draws nothing (no default case). -/
def showArrow (d : Nat) : List Render :=
  if d = 0 then [Render.upArrow]
  else if d = 1 then [Render.downArrow]
  else if d = 2 then [Render.leftArrow]
  else if d = 3 then [Render.rightArrow]
  else []

/-- playSequence (lines 196-215): announces the level, replays the first
`currentLevel` entries (clearing between entries), and finally stores
`millis()` — the tick parameter `tEnd` — into `lastInputTime` (line 214). -/
def playSequence (tEnd : Nat) (s : GameS) : GameS × List Render :=
  ({ s with lastInputTime := tEnd },
   Render.levelScreen s.currentLevel ::
     (List.range s.currentLevel).flatMap
       (fun i => showArrow (s.sequence.getD i 0) ++ [Render.clearScreen]))

/-- handlePlayerMove (lines 259-296).  `tset` is the `millis()` value written
to `lastInputTime` on the correct-move paths.  The feedback glyph is always
`UpArrow()` (line 260), whatever `mv` is. -/
def handlePlayerMove (tset : Nat) (mv : Nat) (s : GameS) : GameS × List Render :=
  let fb : List Render := [Render.upArrow, Render.clearScreen]
  if mv = s.sequence.getD s.currentMove 0 then
    let s1 : GameS := { s with currentMove := s.currentMove + 1, lastInputTime := tset }
    if s1.currentLevel ≤ s1.currentMove then
      let s2 : GameS := { s1 with currentMove := 0, currentLevel := s1.currentLevel + 1 }
      if MAX_LEVEL < s2.currentLevel then
        ({ s2 with gameOver := true },
         fb ++ [Render.winScreen, Render.gameOverScreen (s2.currentLevel - 1)])
      else
        let p := playSequence tset s2
        (p.1, fb ++ p.2)
    else (s1, fb)
  else
    ({ s with gameOver := true },
     fb ++ [Render.gameOverScreen (s.currentLevel - 1)])

/-- checkPlayerInput (lines 234-257): first the timeout test
`millis() - lastInputTime > INPUT_TIMEOUT` (line 238; `now` is that `millis()`
sample), then the tilt ladder on the tick's pitch/roll sample. -/
def checkPlayerInput (now tset : Nat) (pitch roll : ℚ) (s : GameS) :
    GameS × List Render :=
  if INPUT_TIMEOUT < elapsed now s.lastInputTime then
    ({ s with gameOver := true }, [Render.gameOverScreen (s.currentLevel - 1)])
  else
    match classify pitch roll with
    | none => (s, [])
    | some m => handlePlayerMove tset m s

/-- startGame (lines 176-188): sets the flags, resets `currentLevel` to 1,
fills all MAX_LEVEL cells of `sequence` with `random(4)` (the seeded random
stream is the oracle `rng`; cell `i` gets `rng i % 4`), then runs
`playSequence`.  Note: the static cursor `currentMove` is not touched. -/
def startGame (rng : Nat → Nat) (tEnd : Nat) (s : GameS) : GameS × List Render :=
  let s1 : GameS :=
    { s with gameStarted := true
             gameOver := false
             currentLevel := 1
             sequence := (List.range MAX_LEVEL).map (fun i => rng i % 4) }
  playSequence tEnd s1

/-- resetGame (lines 190-194): clears `gameOver`, shows the start screen,
clears `gameStarted`.  Neither `currentLevel` nor the static `currentMove`
is reset here. -/
def resetGame (s : GameS) : GameS × List Render :=
  ({ s with gameOver := false, gameStarted := false }, [Render.startScreen])

/-- One iteration of loop() (lines 118-148): start-button check, then
gameplay (`checkPlayerInput`) while started and not over, then the
reset-button check.  `btn` is the debounced button level of the iteration,
`rng` the random stream a `startGame` in this iteration would use. -/
def loopStep (btn : Bool) (now tset : Nat) (pitch roll : ℚ) (rng : Nat → Nat)
    (s : GameS) : GameS × List Render :=
  let a := if !s.gameStarted && btn then startGame rng tset s else (s, [])
  let b := if a.1.gameStarted && !a.1.gameOver then
             checkPlayerInput now tset pitch roll a.1
           else (a.1, [])
  let c := if b.1.gameOver && btn then resetGame b.1 else (b.1, [])
  (c.1, a.2 ++ b.2 ++ c.2)

/-- The spec's abstract game states, as they are observable between loop
iterations (ShowingSequence is transient inside the blocking playback and
never holds between iterations).  `Won` and `Lost` are distinguished in the
concrete state by `currentLevel`: the win path (line 274) is the only one
that drives `currentLevel` past MAX_LEVEL before setting `gameOver`. -/
inductive Phase where
  | Idle
  | AwaitingInput
  | Won
  | Lost
deriving DecidableEq

/-- Abstraction from the sketch's flag state to the spec's game state. -/
def phase (s : GameS) : Phase :=
  if s.gameStarted = false then Phase.Idle
  else if s.gameOver = true then
    if MAX_LEVEL < s.currentLevel then Phase.Won else Phase.Lost
  else Phase.AwaitingInput

/-- Run a list of AwaitingInput loop ticks, each given as
`(now, tset, pitch, roll)`. -/
def runTicks : List (Nat × Nat × ℚ × ℚ) → GameS → GameS
  | [], s => s
  | (now, tset, p, r) :: ts, s =>
      runTicks ts (checkPlayerInput now tset p r s).1

/-- `playerOk ts s` holds when, along the run of `ts` from `s`, every tick
arrives within INPUT_TIMEOUT of the last `lastInputTime` refresh and its
sample classifies exactly as the element the engine currently expects. -/
def playerOk : List (Nat × Nat × ℚ × ℚ) → GameS → Bool
  | [], _ => true
  | (now, tset, p, r) :: ts, s =>
      decide (elapsed now s.lastInputTime ≤ INPUT_TIMEOUT)
        && (classify p r == some (s.sequence.getD s.currentMove 0))
        && playerOk ts (checkPlayerInput now tset p r s).1

/-- Sum of the level lengths from level `k` through MAX_LEVEL. -/
def sumFrom (k : Nat) : Nat := ((List.range (MAX_LEVEL + 1)).drop k).sum

/-- Number of correct moves still needed to finish the game from state `s`. -/
def movesLeft (s : GameS) : Nat :=
  (s.currentLevel - s.currentMove) + sumFrom (s.currentLevel + 1)

/-- One initialization event: an attempt (with its outcome) or a delay. -/
inductive InitEv where
  | attempt (i : Nat) (ok : Bool)
  | delayMs (ms : Nat)
deriving DecidableEq

/-- The retry loop shared by initializeI2C / initializeMPU / initializeOLED
(lines 83-116): from attempt index `i` with `fuel` attempts left, try the
oracle `f`; on failure, `delay(100)` and retry. -/
def initRetryAux (f : Nat → Bool) (i : Nat) : Nat → Bool × List InitEv
  | 0 => (false, [])
  | fuel + 1 =>
      if f i then (true, [InitEv.attempt i true])
      else
        let rest := initRetryAux f (i + 1) fuel
        (rest.1, InitEv.attempt i false :: InitEv.delayMs 100 :: rest.2)

/-- A full 5-attempt initialization run (`for (int i = 0; i < 5; i++)`). -/
def initRetry (f : Nat → Bool) : Bool × List InitEv := initRetryAux f 0 5

/-- Outcome of setup() (lines 45-81). -/
inductive SetupOutcome where
  | halted
  | running (displayOk : Bool)
deriving DecidableEq

/-- setup() (lines 45-81): I2C failure halts (`while (1)`), MPU failure
halts, OLED failure merely logs and gameplay proceeds. -/
def setupModel (fBus fSensor fDisplay : Nat → Bool) : SetupOutcome :=
  if (initRetry fBus).1 = false then SetupOutcome.halted
  else if (initRetry fSensor).1 = false then SetupOutcome.halted
  else SetupOutcome.running (initRetry fDisplay).1

/-- A concrete freshly-started AwaitingInput state (boot state with the
started flag set), used to instantiate the claim theorems. -/
def gameAwait : GameS :=
  { sequence := List.replicate MAX_LEVEL 0
    currentLevel := 1
    gameStarted := true
    gameOver := false
    lastInputTime := 0
    currentMove := 0 }

/-! ### Helper lemmas -/

/-- A state with the started flag set, the over flag set and a level within
MAX_LEVEL is abstracted to `Lost`. -/
theorem phase_lost_of (s : GameS) (hst : s.gameStarted = true)
    (hov : s.gameOver = true) (hlv : s.currentLevel ≤ MAX_LEVEL) :
    phase s = Phase.Lost := by
  have hnl : ¬ MAX_LEVEL < s.currentLevel := by omega
  simp [phase, hst, hov, hnl]

/-- A started, not-over state is abstracted to `AwaitingInput`. -/
theorem phase_await_of (s : GameS) (hst : s.gameStarted = true)
    (hov : s.gameOver = false) : phase s = Phase.AwaitingInput := by
  simp [phase, hst, hov]

/-- A started, over state whose level passed MAX_LEVEL is abstracted
to `Won`. -/
theorem phase_won_of (s : GameS) (hst : s.gameStarted = true)
    (hov : s.gameOver = true) (hlv : MAX_LEVEL < s.currentLevel) :
    phase s = Phase.Won := by
  simp [phase, hst, hov, hlv]

/-- handlePlayerMove never writes the sequence array. -/
theorem handlePlayerMove_sequence (tset mv : Nat) (s : GameS) :
    ((handlePlayerMove tset mv s).1).sequence = s.sequence := by
  simp only [handlePlayerMove, playSequence]
  split_ifs <;> rfl

/-- checkPlayerInput never writes the sequence array. -/
theorem checkPlayerInput_sequence (now tset : Nat) (pitch roll : ℚ) (s : GameS) :
    ((checkPlayerInput now tset pitch roll s).1).sequence = s.sequence := by
  unfold checkPlayerInput
  split_ifs with h
  · rfl
  · cases hcl : classify pitch roll with
    | none => rfl
    | some m => exact handlePlayerMove_sequence tset m s

/-! ### Claim theorems -/

/-- C5: Within a single AwaitingInput tick, the timeout test comes first:
once `now - lastInputTime` exceeds INPUT_TIMEOUT the tick ends in `Lost`
with `gameOver` set and nothing else changed (in particular the cursor does
not advance), the only render being the game-over screen — no gesture of the
same tick is matched. -/
theorem c5_timeout_checked_first (now tset : Nat) (pitch roll : ℚ) (s : GameS)
    (hst : s.gameStarted = true) (_hov : s.gameOver = false)
    (hlv : s.currentLevel ≤ MAX_LEVEL)
    (ht : INPUT_TIMEOUT < elapsed now s.lastInputTime) :
    (checkPlayerInput now tset pitch roll s).1 = { s with gameOver := true }
    ∧ (checkPlayerInput now tset pitch roll s).2
        = [Render.gameOverScreen (s.currentLevel - 1)]
    ∧ phase (checkPlayerInput now tset pitch roll s).1 = Phase.Lost := by
  unfold checkPlayerInput
  rw [if_pos ht]
  exact ⟨rfl, rfl, phase_lost_of _ hst rfl hlv⟩

/-- Witness for C5 at a concrete timed-out state. -/
theorem c5_timeout_checked_first_witness :
    (checkPlayerInput 4000 4000 0 0 gameAwait).1 = { gameAwait with gameOver := true }
    ∧ (checkPlayerInput 4000 4000 0 0 gameAwait).2
        = [Render.gameOverScreen (gameAwait.currentLevel - 1)]
    ∧ phase (checkPlayerInput 4000 4000 0 0 gameAwait).1 = Phase.Lost :=
  c5_timeout_checked_first 4000 4000 0 0 gameAwait rfl rfl (by decide) (by decide)

/-- C6: startGame writes the full MAX_LEVEL-cell sequence before playback:
the stored sequence is exactly the MAX_LEVEL draws of the random stream,
has length MAX_LEVEL, and every element is one of the four directions
0 = Up, 1 = Down, 2 = Left, 3 = Right. -/
theorem c6_sequence_generation (rng : Nat → Nat) (tEnd : Nat) (s0 : GameS) :
    ((startGame rng tEnd s0).1).sequence
        = (List.range MAX_LEVEL).map (fun i => rng i % 4)
    ∧ ((startGame rng tEnd s0).1).sequence.length = MAX_LEVEL
    ∧ ∀ d ∈ ((startGame rng tEnd s0).1).sequence, d < 4 := by
  refine ⟨rfl, by simp [startGame, playSequence], ?_⟩
  intro d hd
  simp only [startGame, playSequence, List.mem_map, List.mem_range] at hd
  obtain ⟨i, _, hi⟩ := hd
  omega

/-- C7: a computed pitch angle exactly at the threshold (either sign) fires
neither pitch-axis classifier: both comparisons are strict. -/
theorem c7_pitch_boundary (pitch : ℚ)
    (h : pitch = PITCH_THRESHOLD ∨ pitch = -PITCH_THRESHOLD) :
    isTiltUp pitch = false ∧ isTiltDown pitch = false := by
  rcases h with h | h <;> subst h <;> constructor <;> decide

/-- Witness for C7 at pitch exactly PITCH_THRESHOLD. -/
theorem c7_pitch_boundary_witness :
    isTiltUp PITCH_THRESHOLD = false ∧ isTiltDown PITCH_THRESHOLD = false :=
  c7_pitch_boundary PITCH_THRESHOLD (Or.inl rfl)

/-- C10: whatever direction value the tick classified, and whether or not it
matches the expected element, the transient feedback `handlePlayerMove`
renders first is always the Up-arrow glyph. -/
theorem c10_feedback_always_up_arrow (tset mv : Nat) (s : GameS) :
    ((handlePlayerMove tset mv s).2).head? = some Render.upArrow := by
  simp only [handlePlayerMove, playSequence]
  split_ifs <;> rfl

/-- C9: on a loop iteration that does not start a new game (the game is
already running, or the button is not pressed), the sequence array is left
untouched: playback, input handling, win/loss handling and reset never
write it. -/
theorem c9_sequence_immutable (btn : Bool) (now tset : Nat) (pitch roll : ℚ)
    (rng : Nat → Nat) (s : GameS)
    (h : s.gameStarted = true ∨ btn = false) :
    ((loopStep btn now tset pitch roll rng s).1).sequence = s.sequence := by
  have hc : (!s.gameStarted && btn) = false := by
    rcases h with h | h <;> simp [h]
  simp only [loopStep, hc, Bool.false_eq_true, if_false]
  split_ifs <;>
    simp [resetGame, checkPlayerInput_sequence]

/-- Witness for C9 on a concrete running state. -/
theorem c9_sequence_immutable_witness :
    ((loopStep false 100 100 0 0 (fun _ => 0) gameAwait).1).sequence
      = gameAwait.sequence :=
  c9_sequence_immutable false 100 100 0 0 (fun _ => 0) gameAwait (Or.inl rfl)

/-- The retry loop succeeds exactly when one of its `fuel` attempts
(starting at index `i`) succeeds. -/
theorem initRetryAux_true_iff (f : Nat → Bool) :
    ∀ fuel i, (initRetryAux f i fuel).1 = true ↔
      ∃ j, j < fuel ∧ f (i + j) = true := by
  intro fuel
  induction fuel with
  | zero => intro i; simp [initRetryAux]
  | succ n ih =>
    intro i
    cases hfi : f i with
    | true =>
      refine iff_of_true ?_ ⟨0, by omega, by simpa using hfi⟩
      simp [initRetryAux, hfi]
    | false =>
      simp only [initRetryAux, hfi, Bool.false_eq_true, if_false]
      rw [ih (i + 1)]
      constructor
      · rintro ⟨j, hj, hfj⟩
        refine ⟨j + 1, by omega, ?_⟩
        have he : i + (j + 1) = i + 1 + j := by omega
        rwa [he]
      · rintro ⟨j, hj, hfj⟩
        cases j with
        | zero => simp at hfj; rw [hfj] at hfi; cases hfi
        | succ k =>
          refine ⟨k, by omega, ?_⟩
          have he : i + 1 + k = i + (k + 1) := by omega
          rwa [he]

/-- Every event the retry loop emits is either an attempt with index inside
the window `[i, i + fuel)` or a 100 ms delay. -/
theorem initRetryAux_events (f : Nat → Bool) :
    ∀ fuel i e, e ∈ (initRetryAux f i fuel).2 →
      (∀ j ok, e = InitEv.attempt j ok → i ≤ j ∧ j < i + fuel)
      ∧ (∀ m, e = InitEv.delayMs m → m = 100) := by
  intro fuel
  induction fuel with
  | zero => intro i e he; simp [initRetryAux] at he
  | succ n ih =>
    intro i e he
    cases hfi : f i with
    | true =>
      simp only [initRetryAux, hfi, if_true, List.mem_singleton] at he
      subst he
      constructor
      · intro j ok hj
        cases hj
        omega
      · intro m hm
        cases hm
    | false =>
      simp only [initRetryAux, hfi, Bool.false_eq_true, if_false,
        List.mem_cons] at he
      rcases he with he | he | he
      · subst he
        exact ⟨fun j ok hj => (by cases hj; omega), fun m hm => (by cases hm)⟩
      · subst he
        exact ⟨fun j ok hj => (by cases hj), fun m hm => (by cases hm; rfl)⟩
      · have h := ih (i + 1) e he
        refine ⟨fun j ok hj => ?_, h.2⟩
        have := h.1 j ok hj
        omega

/-- C8: bus, sensor and display initialization each attempt establishment at
most 5 times (success exactly when one of attempts 0-4 succeeds), every
inter-attempt delay is 100 ms, a run in which all 5 attempts fail performs
exactly 5 attempts each followed by the 100 ms delay, and in setup() bus or
sensor exhaustion halts the system while display failure leaves it running
(degraded, without a display). -/
theorem c8_init_retry_policy (fBus fSensor fDisplay : Nat → Bool) :
    ((initRetry fBus).1 = true ↔ ∃ i, i < 5 ∧ fBus i = true)
    ∧ (∀ i ok, InitEv.attempt i ok ∈ (initRetry fBus).2 → i < 5)
    ∧ (∀ m, InitEv.delayMs m ∈ (initRetry fBus).2 → m = 100)
    ∧ ((∀ i, i < 5 → fBus i = false) →
        (initRetry fBus).2 =
          [InitEv.attempt 0 false, InitEv.delayMs 100,
           InitEv.attempt 1 false, InitEv.delayMs 100,
           InitEv.attempt 2 false, InitEv.delayMs 100,
           InitEv.attempt 3 false, InitEv.delayMs 100,
           InitEv.attempt 4 false, InitEv.delayMs 100])
    ∧ (setupModel fBus fSensor fDisplay = SetupOutcome.halted ↔
        ((initRetry fBus).1 = false ∨ (initRetry fSensor).1 = false))
    ∧ ((initRetry fBus).1 = true → (initRetry fSensor).1 = true →
        setupModel fBus fSensor fDisplay
          = SetupOutcome.running ((initRetry fDisplay).1)) := by
  refine ⟨?_, ?_, ?_, ?_, ?_, ?_⟩
  · simpa using initRetryAux_true_iff fBus 5 0
  · intro i ok hmem
    have h := (initRetryAux_events fBus 5 0 _ hmem).1 i ok rfl
    omega
  · intro m hmem
    exact (initRetryAux_events fBus 5 0 _ hmem).2 m rfl
  · intro hall
    simp [initRetry, initRetryAux, hall 0 (by omega), hall 1 (by omega),
      hall 2 (by omega), hall 3 (by omega), hall 4 (by omega)]
  · unfold setupModel
    cases hb : (initRetry fBus).1 <;> cases hs : (initRetry fSensor).1 <;>
      simp
  · intro hb hs
    unfold setupModel
    rw [hb, hs]
    simp

/-- Witness for C8: with a bus that never responds, setup halts. -/
theorem c8_init_retry_policy_witness :
    setupModel (fun _ => false) (fun _ => true) (fun _ => true)
      = SetupOutcome.halted := by
  have h := c8_init_retry_policy (fun _ => false) (fun _ => true) (fun _ => true)
  exact h.2.2.2.2.1.mpr (Or.inl (by decide))

/-- C1: on an AwaitingInput tick, the engine goes to `Lost` exactly when the
tick's classified gesture differs from `sequence[currentMove]` or the time
elapsed since the last `lastInputTime` refresh (last correct input or
playback end) exceeds INPUT_TIMEOUT; a tick with a correct, timely gesture
(or no gesture and no timeout) never goes to `Lost`. -/
theorem c1_lost_iff (now tset : Nat) (pitch roll : ℚ) (s : GameS)
    (hst : s.gameStarted = true) (hov : s.gameOver = false)
    (hlv : s.currentLevel ≤ MAX_LEVEL) :
    phase (checkPlayerInput now tset pitch roll s).1 = Phase.Lost ↔
      (INPUT_TIMEOUT < elapsed now s.lastInputTime
        ∨ ∃ m, classify pitch roll = some m
            ∧ m ≠ s.sequence.getD s.currentMove 0) := by
  unfold checkPlayerInput
  by_cases ht : INPUT_TIMEOUT < elapsed now s.lastInputTime
  · rw [if_pos ht]
    exact iff_of_true (phase_lost_of _ hst rfl hlv) (Or.inl ht)
  · rw [if_neg ht]
    cases hcl : classify pitch roll with
    | none =>
      refine iff_of_false ?_ ?_
      · rw [phase_await_of s hst hov]
        intro h
        cases h
      · rintro (h | ⟨m, hm, _⟩)
        · exact ht h
        · cases hm
    | some m =>
      by_cases hm : m = s.sequence.getD s.currentMove 0
      · refine iff_of_false ?_ ?_
        · simp only [handlePlayerMove, playSequence]
          rw [if_pos hm]
          split_ifs with hc hw
          · simp [phase, hst, hw]
          · simp [phase, hst, hov]
          · simp [phase, hst, hov]
        · rintro (h | ⟨m', hm', hne⟩)
          · exact ht h
          · cases hm'
            exact hne hm
      · refine iff_of_true ?_ (Or.inr ⟨m, rfl, hm⟩)
        simp only [handlePlayerMove]
        rw [if_neg hm]
        exact phase_lost_of _ hst rfl hlv

/-- Witness for C1 on a concrete timed-out tick. -/
theorem c1_lost_iff_witness :
    phase (checkPlayerInput 4000 4000 0 0 gameAwait).1 = Phase.Lost ↔
      (INPUT_TIMEOUT < elapsed 4000 gameAwait.lastInputTime
        ∨ ∃ m, classify 0 0 = some m
            ∧ m ≠ gameAwait.sequence.getD gameAwait.currentMove 0) :=
  c1_lost_iff 4000 4000 0 0 gameAwait rfl rfl (by decide)

/-- Unfolding one level of `sumFrom` below MAX_LEVEL + 1. -/
theorem sumFrom_step (k : Nat) (hk : k < MAX_LEVEL + 1) :
    sumFrom k = k + sumFrom (k + 1) := by
  have hk2 : k < 11 := hk
  interval_cases k <;> rfl

/-- A run of correct, timely ticks of length `movesLeft s` from any running
mid-game state ends in `Won`. -/
theorem perfectRun_won : ∀ (ts : List (Nat × Nat × ℚ × ℚ)) (s : GameS),
    playerOk ts s = true → s.gameStarted = true → s.gameOver = false →
    s.currentMove < s.currentLevel → s.currentLevel ≤ MAX_LEVEL →
    ts.length = movesLeft s → phase (runTicks ts s) = Phase.Won := by
  intro ts
  induction ts with
  | nil =>
    intro s _ _ _ hcl _ hlen
    unfold movesLeft at hlen
    simp only [List.length_nil] at hlen
    omega
  | cons t ts ih =>
    obtain ⟨now, tset, p, r⟩ := t
    intro s hok hst hov hcl hlv hlen
    simp only [playerOk, Bool.and_eq_true, decide_eq_true_eq, beq_iff_eq] at hok
    obtain ⟨⟨hT, hG⟩, hRest⟩ := hok
    have hnt : ¬ INPUT_TIMEOUT < elapsed now s.lastInputTime := by omega
    have heq : checkPlayerInput now tset p r s
        = handlePlayerMove tset (s.sequence.getD s.currentMove 0) s := by
      unfold checkPlayerInput
      rw [if_neg hnt, hG]
    simp only [runTicks]
    rw [heq] at hRest ⊢
    simp only [List.length_cons] at hlen
    unfold movesLeft at hlen
    by_cases hc : s.currentLevel ≤ s.currentMove + 1
    · by_cases hw : MAX_LEVEL < s.currentLevel + 1
      · -- the final level is completed: the win branch of handlePlayerMove
        have hzero : sumFrom (s.currentLevel + 1) = 0 := by
          have hL : s.currentLevel = MAX_LEVEL := by omega
          rw [hL]
          rfl
        have hts : ts = [] := by
          have : ts.length = 0 := by omega
          exact List.length_eq_zero.mp this
        subst hts
        have hred : (handlePlayerMove tset (s.sequence.getD s.currentMove 0) s).1
            = { s with currentMove := 0, currentLevel := s.currentLevel + 1,
                       lastInputTime := tset, gameOver := true } := by
          simp only [handlePlayerMove, playSequence]
          rw [if_pos trivial, if_pos hc, if_pos hw]
        rw [hred]
        exact phase_won_of _ hst rfl hw
      · -- a level below MAX_LEVEL is completed: the playSequence branch
        have hred : (handlePlayerMove tset (s.sequence.getD s.currentMove 0) s).1
            = { s with currentMove := 0, currentLevel := s.currentLevel + 1,
                       lastInputTime := tset } := by
          simp only [handlePlayerMove, playSequence]
          rw [if_pos trivial, if_pos hc, if_neg hw]
        rw [hred] at hRest ⊢
        apply ih _ hRest hst hov
        · show 0 < s.currentLevel + 1
          omega
        · show s.currentLevel + 1 ≤ MAX_LEVEL
          omega
        · have hsum : sumFrom (s.currentLevel + 1)
              = (s.currentLevel + 1) + sumFrom (s.currentLevel + 1 + 1) :=
            sumFrom_step (s.currentLevel + 1) (by omega)
          show ts.length
              = (s.currentLevel + 1 - 0) + sumFrom (s.currentLevel + 1 + 1)
          omega
    · -- mid-level correct move: the cursor advances
      have hred : (handlePlayerMove tset (s.sequence.getD s.currentMove 0) s).1
          = { s with currentMove := s.currentMove + 1, lastInputTime := tset } := by
        simp only [handlePlayerMove, playSequence]
        rw [if_pos trivial, if_neg hc]
      rw [hred] at hRest ⊢
      apply ih _ hRest hst hov
      · show s.currentMove + 1 < s.currentLevel
        omega
      · exact hlv
      · show ts.length
            = (s.currentLevel - (s.currentMove + 1)) + sumFrom (s.currentLevel + 1)
        omega

/-- C2: from a game start with a cleared cursor, whatever sequence the random
stream generated, a player who answers every tick with the gesture matching
the expected element, each within INPUT_TIMEOUT, drives the engine through
all MAX_LEVEL levels (55 correct moves) into the `Won` terminal phase —
which is distinct from `Lost` — never into `Lost`. -/
theorem c2_perfect_play_wins (rng : Nat → Nat) (tEnd : Nat) (s0 : GameS)
    (ts : List (Nat × Nat × ℚ × ℚ))
    (h0 : s0.currentMove = 0)
    (hok : playerOk ts (startGame rng tEnd s0).1 = true)
    (hlen : ts.length = 55) :
    phase (runTicks ts (startGame rng tEnd s0).1) = Phase.Won := by
  apply perfectRun_won ts _ hok rfl rfl
  · show s0.currentMove < 1
    omega
  · show (1 : Nat) ≤ MAX_LEVEL
    decide
  · show ts.length = movesLeft (startGame rng tEnd s0).1
    have hmv : movesLeft (startGame rng tEnd s0).1 = 1 - s0.currentMove + sumFrom 2 :=
      rfl
    rw [hmv, h0, hlen]
    rfl

/-- Witness for C2: the all-Up sequence answered by 55 timely Up tilts. -/
theorem c2_perfect_play_wins_witness :
    phase (runTicks (List.replicate 55 (0, 0, (-30 : ℚ), (0 : ℚ)))
        (startGame (fun _ => 0) 0 initState).1) = Phase.Won :=
  c2_perfect_play_wins (fun _ => 0) 0 initState
    (List.replicate 55 (0, 0, (-30 : ℚ), (0 : ℚ))) rfl (by decide) (by decide)

/-- A concrete run refuting the cursor-clearing part of the restart story:
boot, press the button (sequence all Up), answer Up (level 1 done, level 2),
answer Up (cursor 1), answer Down (wrong move, game over with the static
cursor still 1), press the button (reset to idle), press the button again
(new game).  Each tick is one loop() iteration with its button level,
`millis()` samples and tilt angles. -/
def c3Trace : GameS :=
  (loopStep true 1200 1100 0 0 (fun _ => 0)
    (loopStep true 800 900 0 0 (fun _ => 0)
      (loopStep false 600 700 30 0 (fun _ => 0)
        (loopStep false 400 500 (-30) 0 (fun _ => 0)
          (loopStep false 200 300 (-30) 0 (fun _ => 0)
            (loopStep true 150 100 0 0 (fun _ => 0) initState).1).1).1).1).1).1

/-- C3: evaluation of the sketch on the `c3Trace` run.  After losing at
level 2 with one correct move banked and restarting via two button presses,
the next game is running at level 1 — but the input cursor still holds 1:
`resetGame`/`startGame` never clear the static `currentMove`, contradicting
the claim that the next game begins with input cursor 0. -/
theorem c3_restart_keeps_stale_cursor :
    c3Trace.gameStarted = true ∧ c3Trace.gameOver = false
    ∧ c3Trace.currentLevel = 1 ∧ c3Trace.currentMove = 1 := by
  decide

/-- A longer concrete run: reach level 3, make two correct moves, then a
wrong move (game over, static cursor stuck at 2), reset and restart.  The
new game runs at level 1 with cursor 2. -/
def c4Trace : GameS :=
  (loopStep true 1700 1600 0 0 (fun _ => 0)
    (loopStep true 1400 1500 0 0 (fun _ => 0)
      (loopStep false 1200 1300 30 0 (fun _ => 0)
        (loopStep false 1000 1100 (-30) 0 (fun _ => 0)
          (loopStep false 800 900 (-30) 0 (fun _ => 0)
            (loopStep false 600 700 (-30) 0 (fun _ => 0)
              (loopStep false 400 500 (-30) 0 (fun _ => 0)
                (loopStep false 200 300 (-30) 0 (fun _ => 0)
                  (loopStep true 150 100 0 0 (fun _ => 0)
                    initState).1).1).1).1).1).1).1).1).1

/-- C4: evaluation of the sketch on the `c4Trace` run.  The state reached is
a live AwaitingInput state whose input cursor (2) exceeds the current level
(1), refuting the claimed invariant `cursor ∈ [0, level]` across game-over
and restart. -/
theorem c4_cursor_exceeds_level :
    phase c4Trace = Phase.AwaitingInput
    ∧ c4Trace.currentLevel = 1 ∧ c4Trace.currentMove = 2
    ∧ c4Trace.currentLevel < c4Trace.currentMove := by
  decide

end SimonSays
